import Mathlib

set_option maxRecDepth 400000

/-!
Verification of the voxel-world core of `src/App.tsx` (craftworld).

The source is TypeScript; numeric values there are IEEE doubles.  The
embedding uses exact rationals (`ℚ`) for world-space quantities and `Int`
for voxel coordinates.  All constants of the source are exact in binary
or decimal (0.05, 0.3, 1.6, …) and are carried exactly here; the two
places where the source computes an irrational value (normalising the ray
direction, `Math.pow(0.001, delta)`) are taken as parameters of the
corresponding model function.  Noise-derived quantities (terrain height,
biome, trunk height) enter the per-column / per-tree generation steps as
parameters, exactly as the generated value enters the loops in the source.
-/

/-- Block kinds (`BlockType` in the source). -/
inductive BlockType where
  | grass
  | dirt
  | stone
  | wood
  | leaves
  | sand
  | glass
  | water
  | bedrock
deriving DecidableEq, Repr

/-- Integer voxel coordinate; the source keys its `Map` by the string
`"x,y,z"`, which is in bijection with the triple. -/
structure Coord where
  x : Int
  y : Int
  z : Int
deriving DecidableEq, Repr

/-- Sparse voxel store: the source's `Map<string, BlockType>`, as an
association list with `Map` get/set/delete semantics.  -/
abbrev VoxelStore := List (Coord × BlockType)

namespace VoxelStore

/-- `blocks.get(key)`: first (unique, for maps built by set/erase) entry. -/
def get : VoxelStore → Coord → Option BlockType
  | [], _ => none
  | (c', k) :: rest, c => if c' = c then some k else get rest c

/-- `blocks.set(key, kind)`: replace the entry if present, else append. -/
def set : VoxelStore → Coord → BlockType → VoxelStore
  | [], c, k => [(c, k)]
  | (c', k') :: rest, c, k =>
      if c' = c then (c, k) :: rest else (c', k') :: set rest c k

/-- `blocks.delete(key)`. -/
def erase : VoxelStore → Coord → VoxelStore
  | [], _ => []
  | (c', k') :: rest, c => if c' = c then rest else (c', k') :: erase rest c

/-- `blocks.has(key)`. -/
def has (s : VoxelStore) (c : Coord) : Bool :=
  (s.get c).isSome

end VoxelStore

/-- Rational position vector (`THREE.Vector3` in the source). -/
structure Vec3 where
  x : ℚ
  y : ℚ
  z : ℚ
deriving DecidableEq, Repr

/-- `Math.round` (round half toward positive infinity). -/
def jsRound (q : ℚ) : Int := ⌊q + 1/2⌋

def PLAYER_HEIGHT : ℚ := 8/5
def PLAYER_RADIUS : ℚ := 3/10
def GRAVITY : ℚ := 28
def JUMP_FORCE : ℚ := 9
def WALK_SPEED : ℚ := 6
def FLY_SPEED : ℚ := 16
def SPRINT_MULTIPLIER : ℚ := 8/5
def RAY_STEP : ℚ := 1/20

/-! ## Terrain generation (`generateWorld`, source lines 234-299) -/

/-- Block kind written by the column loop at height `y` for a column of
terrain height `height` (source lines 247-257). -/
def columnLayer (desert : Bool) (height y : Int) : BlockType :=
  if y = height then (if desert then BlockType.sand else BlockType.grass)
  else if y > height - 3 then (if desert then BlockType.sand else BlockType.dirt)
  else BlockType.stone

/-- One column of `generateWorld`'s terrain fill: bedrock at `y = 0`, then
`columnLayer` for `y = 1 .. height`.  The noise-derived `height`
(`getTerrainHeight`) and biome test (`getBiome(x,z) == 'desert'`) enter as
parameters. -/
def genColumn (s : VoxelStore) (x z : Int) (desert : Bool) (height : Int) : VoxelStore :=
  (List.range height.toNat).foldl
    (fun b (i : ℕ) => b.set ⟨x, (i : Int) + 1, z⟩ (columnLayer desert height ((i : Int) + 1)))
    (s.set ⟨x, 0, z⟩ BlockType.bedrock)

/-- Trunk loop of the tree pass: wood at `baseY + y` for `y = 0 .. trunkHeight-1`
(source lines 276-278). -/
def trunkStore (s : VoxelStore) (tx tz baseY : Int) (trunkHeight : Nat) : VoxelStore :=
  (List.range trunkHeight).foldl
    (fun b (y : ℕ) => b.set ⟨tx, baseY + (y : Int), tz⟩ BlockType.wood) s

/-- Loop range `-leafRadius .. leafRadius` with `leafRadius = 2`. -/
def seqLR : List Int := [-2, -1, 0, 1, 2]

/-- Loop range of `ly` in the leaf loop: `-1 .. leafRadius`. -/
def seqLY : List Int := [-1, 0, 1, 2]

/-- Offsets visited by the triple leaf loop, in source order (lx, ly, lz). -/
def leafOffsets : List (Int × Int × Int) :=
  seqLR.flatMap (fun lx => seqLY.flatMap (fun ly => seqLR.map (fun lz => (lx, ly, lz))))

/-- `Math.sqrt(lx*lx + ly*ly + lz*lz) <= leafRadius + 0.5`, compared squared
(exact for these small integers, as it is for correctly rounded doubles). -/
def inLeafSphere (o : Int × Int × Int) : Bool :=
  4 * (o.1 * o.1 + o.2.1 * o.2.1 + o.2.2 * o.2.2) ≤ 25

/-- Coordinate written for leaf offset `o` around center `(tx, cy, tz)`. -/
def leafCoord (tx cy tz : Int) (o : Int × Int × Int) : Coord :=
  ⟨tx + o.1, cy + o.2.1, tz + o.2.2⟩

/-- Body of the leaf loop (source lines 285-291): inside the sphere, write
leaves unless the coordinate currently holds wood. -/
def leafStep (tx cy tz : Int) (b : VoxelStore) (o : Int × Int × Int) : VoxelStore :=
  if inLeafSphere o then
    (if b.get (leafCoord tx cy tz o) = some BlockType.wood then b
     else b.set (leafCoord tx cy tz o) BlockType.leaves)
  else b

/-- The full leaf loop around center height `cy`. -/
def placeLeaves (s : VoxelStore) (tx tz cy : Int) : VoxelStore :=
  leafOffsets.foldl (leafStep tx cy tz) s

/-- One tree of the tree pass (source lines 272-296): trunk from
`baseY = h + 1`, leaf sphere centered at `leafCenter = baseY + trunkHeight - 1`,
and one extra leaf at `leafCenter + leafRadius + 1`.  The noise-derived
`trunkHeight` enters as a parameter. -/
def placeTree (s : VoxelStore) (tx tz h : Int) (trunkHeight : Nat) : VoxelStore :=
  let baseY := h + 1
  let s1 := trunkStore s tx tz baseY trunkHeight
  let leafCenter := baseY + (trunkHeight : Int) - 1
  (placeLeaves s1 tx tz leafCenter).set ⟨tx, leafCenter + 2 + 1, tz⟩ BlockType.leaves

/-! ## Face culling (`hasExposedFace` / `ChunkMesh`, source lines 316-354) -/

/-- The 6 face directions, in source order. -/
def FACE_DIRS : List (Int × Int × Int) :=
  [(1, 0, 0), (-1, 0, 0), (0, 1, 0), (0, -1, 0), (0, 0, 1), (0, 0, -1)]

/-- Offset a coordinate by a face direction. -/
def addC (c : Coord) (d : Int × Int × Int) : Coord :=
  ⟨c.x + d.1, c.y + d.2.1, c.z + d.2.2⟩

/-- `!neighbor || neighbor === 'glass' || neighbor === 'water' || neighbor === 'leaves'`. -/
def translucentOrAbsent : Option BlockType → Bool
  | none => true
  | some BlockType.glass => true
  | some BlockType.water => true
  | some BlockType.leaves => true
  | some _ => false

/-- `hasExposedFace(blocks, key)`. -/
def hasExposedFace (s : VoxelStore) (c : Coord) : Bool :=
  FACE_DIRS.any (fun d => translucentOrAbsent (s.get (addC c d)))

/-- The entries `ChunkMesh` keeps for rendering: every stored voxel whose
`hasExposedFace` test passes (source lines 341-351). -/
def visibleEntries (s : VoxelStore) : VoxelStore :=
  s.filter (fun e => hasExposedFace s e.1)

/-! ## Ray marching (`raycastBlocks`, source lines 423-467) -/

/-- Result of a block raycast (the source also returns the string key,
which is determined by `hitPos`). -/
structure RayHit where
  hitPos : Coord
  faceNormal : Coord
deriving DecidableEq, Repr

/-- Face-normal derivation (source lines 446-453): the axis with the
largest coordinate change, ties broken x then y then z, negated sign. -/
def faceNormalOf (prev cur : Coord) : Coord :=
  let nx := cur.x - prev.x
  let ny := cur.y - prev.y
  let nz := cur.z - prev.z
  let ax := nx.natAbs
  let ay := ny.natAbs
  let az := nz.natAbs
  if ax ≥ ay ∧ ax ≥ az then ⟨-nx.sign, 0, 0⟩
  else if ay ≥ ax ∧ ay ≥ az then ⟨0, -ny.sign, 0⟩
  else ⟨0, 0, -nz.sign⟩

/-- The march loop of `raycastBlocks`, with the remaining iteration count
as fuel: advance by `dir`, and when the rounded voxel changes, query the
store; any occupied non-water voxel is a hit. -/
def raycastLoop (s : VoxelStore) (dir : Vec3) : Vec3 → Coord → Nat → Option RayHit
  | _, _, 0 => none
  | pos, prev, n + 1 =>
    let pos2 : Vec3 := ⟨pos.x + dir.x, pos.y + dir.y, pos.z + dir.z⟩
    let b : Coord := ⟨jsRound pos2.x, jsRound pos2.y, jsRound pos2.z⟩
    if b = prev then raycastLoop s dir pos2 prev n
    else
      match s.get b with
      | some k =>
          if k = BlockType.water then raycastLoop s dir pos2 b n
          else some ⟨b, faceNormalOf prev b⟩
      | none => raycastLoop s dir pos2 b n

/-- `raycastBlocks(origin, direction, blocks, maxDist)`.  The source
normalises `direction` over the reals and scales it by `step = 0.05`; the
model takes the (unit) direction and scales exactly, and the loop
`for (d = 0; d < maxDist; d += step)` runs `ceil(maxDist / step)` times. -/
def raycastBlocks (origin dir : Vec3) (s : VoxelStore) (maxDist : ℚ) : Option RayHit :=
  let d : Vec3 := ⟨dir.x * RAY_STEP, dir.y * RAY_STEP, dir.z * RAY_STEP⟩
  raycastLoop s d origin ⟨jsRound origin.x, jsRound origin.y, jsRound origin.z⟩
    (⌈maxDist / RAY_STEP⌉.toNat)

/-! ## Break / place handlers (`PlayerController` onClick, source lines 916-954) -/

/-- Left-click mutation: breaking bedrock is refused, otherwise the hit
coordinate is deleted (source lines 924-930). -/
def breakHandler (s : VoxelStore) (hitKey : Coord) : VoxelStore :=
  if s.get hitKey = some BlockType.bedrock then s else s.erase hitKey

/-- The place mutation: a no-op when the target is occupied, otherwise a
set of the selected kind (source lines 946-952). -/
def placeBlock (s : VoxelStore) (c : Coord) (k : BlockType) : VoxelStore :=
  if (s.get c).isSome then s else s.set c k

/-- The self-placement guard of the place handler (source lines 939-944):
the placement coordinate equals the rounded camera column and its `y` lies
between `round(cp.y - PLAYER_HEIGHT)` and `round(cp.y)`. -/
def selfColumnBlocked (cp : Vec3) (p : Coord) : Prop :=
  |p.x - jsRound cp.x| ≤ 0 ∧
  (jsRound (cp.y - PLAYER_HEIGHT) ≤ p.y ∧ p.y ≤ jsRound cp.y) ∧
  |p.z - jsRound cp.z| ≤ 0

instance (cp : Vec3) (p : Coord) : Decidable (selfColumnBlocked cp p) := by
  unfold selfColumnBlocked
  infer_instance

/-- Right-click mutation (source lines 931-953), from the guard on. -/
def placeHandler (s : VoxelStore) (cp : Vec3) (p : Coord) (k : BlockType) : VoxelStore :=
  if selfColumnBlocked cp p then s else placeBlock s p k

/-- Modelled from the spec claim wording (C7 only): the player's
axis-aligned bounding volume (horizontal radius `PLAYER_RADIUS` around the
position, vertical extent `[cp.y - PLAYER_HEIGHT, cp.y]`) meets the closed
unit cube of the placement coordinate. -/
def bodyIntersectsCube (cp : Vec3) (p : Coord) : Prop :=
  cp.x - PLAYER_RADIUS ≤ (p.x : ℚ) + 1/2 ∧ (p.x : ℚ) - 1/2 ≤ cp.x + PLAYER_RADIUS ∧
  cp.y - PLAYER_HEIGHT ≤ (p.y : ℚ) + 1/2 ∧ (p.y : ℚ) - 1/2 ≤ cp.y ∧
  cp.z - PLAYER_RADIUS ≤ (p.z : ℚ) + 1/2 ∧ (p.z : ℚ) - 1/2 ≤ cp.z + PLAYER_RADIUS

instance (cp : Vec3) (p : Coord) : Decidable (bodyIntersectsCube cp p) := by
  unfold bodyIntersectsCube
  infer_instance

/-! ## Collision and per-frame integration (`PlayerController`, source lines 837-1049) -/

/-- Player body state: camera position, velocity, grounded flag. -/
structure Body where
  px : ℚ
  py : ℚ
  pz : ℚ
  vx : ℚ
  vy : ℚ
  vz : ℚ
  grounded : Bool
deriving DecidableEq, Repr

/-- Sample offsets of `checkCollision`'s triple loop, in source order
(dx, dy, dz) with dx, dz in -1..1 and dy in 0..2. -/
def sampleOffsets : List (Int × Int × Int) :=
  [-1, 0, 1].flatMap (fun dx =>
    [0, 1, 2].flatMap (fun dy =>
      [-1, 0, 1].map (fun dz => (dx, dy, dz))))

/-- `isBlockSolid`: occupied and not water (source lines 837-841). -/
def isBlockSolid (s : VoxelStore) (c : Coord) : Bool :=
  match s.get c with
  | none => false
  | some BlockType.water => false
  | some _ => true

/-- `checkCollision(px, py, pz)` (source lines 843-870): a sampled voxel is
solid and its unit cube overlaps the body's box at the candidate position. -/
def checkCollision (s : VoxelStore) (px py pz : ℚ) : Bool :=
  sampleOffsets.any (fun o =>
    let bx := jsRound (px + (o.1 : ℚ) * PLAYER_RADIUS)
    let bY := jsRound (py - PLAYER_HEIGHT + (o.2.1 : ℚ))
    let bz := jsRound (pz + (o.2.2 : ℚ) * PLAYER_RADIUS)
    isBlockSolid s ⟨bx, bY, bz⟩ &&
      ((px + PLAYER_RADIUS > (bx : ℚ) - 1/2) && (px - PLAYER_RADIUS < (bx : ℚ) + 1/2) &&
       (py + 1/10 > (bY : ℚ) - 1/2) && (py - PLAYER_HEIGHT < (bY : ℚ) + 1/2) &&
       (pz + PLAYER_RADIUS > (bz : ℚ) - 1/2) && (pz - PLAYER_RADIUS < (bz : ℚ) + 1/2)))

/-- Axis-separated movement of the frame loop (source lines 1015-1046):
candidate X, then Z, then Y, each rejected (and its velocity zeroed) on
collision, downward Y rejection grounds the body, then the floor clamp. -/
def moveAxes (s : VoxelStore) (b : Body) (dt : ℚ) : Body :=
  let newX := b.px + b.vx * dt
  let b1 := if checkCollision s newX b.py b.pz then { b with vx := 0 }
            else { b with px := newX }
  let newZ := b1.pz + b1.vz * dt
  let b2 := if checkCollision s b1.px b1.py newZ then { b1 with vz := 0 }
            else { b1 with pz := newZ }
  let newY := b2.py + b2.vy * dt
  let b3 :=
    if checkCollision s b2.px newY b2.pz then
      { b2 with vy := 0, grounded := if b2.vy < 0 then true else b2.grounded }
    else
      { b2 with py := newY, grounded := false }
  if b3.py < 1 then { b3 with py := 1, vy := 0, grounded := true } else b3

/-- One frame of the game loop (source lines 967-1049), from the timestep
clamp on.  `pow001` stands for `delta ↦ Math.pow(0.001, delta)` (irrational
over ℚ), and `moveX, moveZ, moveY` for the normalised camera-relative move
intent computed in lines 974-992; both enter as parameters.  `jumpKey` is
the Space key, `sprintKey` the ShiftLeft key. -/
def useFrameStep (pow001 : ℚ → ℚ) (s : VoxelStore)
    (flying sprintKey jumpKey : Bool) (moveX moveZ moveY : ℚ)
    (b : Body) (rawDelta : ℚ) : Body :=
  let delta := min rawDelta (1/20)
  let speed := if flying then FLY_SPEED
               else if sprintKey then WALK_SPEED * SPRINT_MULTIPLIER else WALK_SPEED
  let targetVX := moveX * speed
  let targetVZ := moveZ * speed
  let lerpFactor := 1 - pow001 delta
  let vx := b.vx + (targetVX - b.vx) * lerpFactor
  let vz := b.vz + (targetVZ - b.vz) * lerpFactor
  let b1 :=
    if flying then
      let targetVY := moveY * speed + (if jumpKey then speed else 0)
                        - (if sprintKey then speed else 0)
      { b with vx := vx, vz := vz, vy := b.vy + (targetVY - b.vy) * lerpFactor }
    else
      let vy1 := b.vy - GRAVITY * delta
      let vy2 := if vy1 < -40 then (-40 : ℚ) else vy1
      if jumpKey && b.grounded then
        { b with vx := vx, vz := vz, vy := JUMP_FORCE, grounded := false }
      else { b with vx := vx, vz := vz, vy := vy2 }
  moveAxes s b1 delta

/-! ## Store lemmas -/

theorem VoxelStore.get_set_self (s : VoxelStore) (c : Coord) (k : BlockType) :
    (s.set c k).get c = some k := by
  induction s with
  | nil => simp [VoxelStore.set, VoxelStore.get]
  | cons e rest ih =>
    obtain ⟨c', k'⟩ := e
    by_cases h : c' = c
    · simp [VoxelStore.set, VoxelStore.get, h]
    · simp [VoxelStore.set, VoxelStore.get, h, ih]

theorem VoxelStore.get_set_ne (s : VoxelStore) (c c' : Coord) (k : BlockType)
    (h : c ≠ c') : (s.set c k).get c' = s.get c' := by
  induction s with
  | nil => simp [VoxelStore.set, VoxelStore.get, h]
  | cons e rest ih =>
    obtain ⟨c0, k0⟩ := e
    by_cases h0 : c0 = c
    · subst h0
      simp [VoxelStore.set, VoxelStore.get, h]
    · simp [VoxelStore.set, VoxelStore.get, h0, ih]

theorem VoxelStore.erase_set_of_get_none (s : VoxelStore) (c : Coord) (k : BlockType)
    (h : s.get c = none) : (s.set c k).erase c = s := by
  induction s with
  | nil => simp [VoxelStore.set, VoxelStore.erase]
  | cons e rest ih =>
    obtain ⟨c0, k0⟩ := e
    by_cases h0 : c0 = c
    · subst h0
      simp [VoxelStore.get] at h
    · have h' : VoxelStore.get rest c = none := by
        simpa [VoxelStore.get, h0] using h
      simp [VoxelStore.set, VoxelStore.erase, h0, ih h']

theorem VoxelStore.get_mem (s : VoxelStore) (c : Coord) (k : BlockType)
    (h : s.get c = some k) : (c, k) ∈ s := by
  induction s with
  | nil => simp [VoxelStore.get] at h
  | cons e rest ih =>
    obtain ⟨c0, k0⟩ := e
    by_cases h0 : c0 = c
    · subst h0
      simp [VoxelStore.get] at h
      simp [h]
    · have h' : VoxelStore.get rest c = some k := by
        simpa [VoxelStore.get, h0] using h
      exact List.mem_cons_of_mem _ (ih h')

/-! ## C5: breaking bedrock is a no-op -/

/-- C5 (confirmed): for every store and every break request whose raycast
hit coordinate holds bedrock, the break handler leaves the store completely
unchanged — same entry count and same kind at every coordinate. -/
theorem bedrock_break_noop (o dir : Vec3) (m : ℚ) (s : VoxelStore) (hit : RayHit)
    (_hray : raycastBlocks o dir s m = some hit)
    (hbed : s.get hit.hitPos = some BlockType.bedrock) :
    breakHandler s hit.hitPos = s ∧
    (breakHandler s hit.hitPos).length = s.length ∧
    ∀ c : Coord, (breakHandler s hit.hitPos).get c = s.get c := by
  have h : breakHandler s hit.hitPos = s := by
    unfold breakHandler
    rw [if_pos hbed]
  exact ⟨h, by rw [h], fun c => by rw [h]⟩

/-- Witness for C5: a concrete downward break request onto bedrock. -/
theorem bedrock_break_noop_witness :
    breakHandler [(⟨0, 0, 0⟩, BlockType.bedrock)] ⟨0, 0, 0⟩ =
      [(⟨0, 0, 0⟩, BlockType.bedrock)] :=
  (bedrock_break_noop ⟨0, 2, 0⟩ ⟨0, -1, 0⟩ 6 _ ⟨⟨0, 0, 0⟩, ⟨0, 1, 0⟩⟩
    (by with_unfolding_all rfl) (by with_unfolding_all rfl)).1

/-! ## C4: place-then-break round trip -/

/-- C4 counterexample: for K = bedrock the round trip fails — the hotbar
offers bedrock, placing it succeeds at an empty coordinate, and the break
handler then refuses to delete it. -/
theorem place_break_bedrock_counterexample :
    VoxelStore.get [] ⟨0, 0, 0⟩ = none ∧
    (breakHandler (placeBlock [] ⟨0, 0, 0⟩ BlockType.bedrock) ⟨0, 0, 0⟩).get ⟨0, 0, 0⟩ =
      some BlockType.bedrock ∧
    some BlockType.bedrock ≠ (none : Option BlockType) := by
  refine ⟨rfl, by with_unfolding_all rfl, by decide⟩

/-- C4 (as amended): for every block kind K other than bedrock and every
coordinate empty in the store, placing K there and then breaking that
coordinate restores the store — in fact the entire store, and in particular
the entry at that coordinate. -/
theorem place_break_roundtrip (s : VoxelStore) (c : Coord) (k : BlockType)
    (hk : k ≠ BlockType.bedrock) (hc : s.get c = none) :
    breakHandler (placeBlock s c k) c = s ∧
    (breakHandler (placeBlock s c k) c).get c = s.get c := by
  have hp : placeBlock s c k = s.set c k := by
    simp [placeBlock, hc]
  have hg : (s.set c k).get c = some k := VoxelStore.get_set_self s c k
  have hb : breakHandler (s.set c k) c = (s.set c k).erase c := by
    unfold breakHandler
    rw [hg, if_neg (fun h => hk (Option.some.inj h))]
  have : breakHandler (placeBlock s c k) c = s := by
    rw [hp, hb, VoxelStore.erase_set_of_get_none s c k hc]
  exact ⟨this, by rw [this]⟩

/-- Witness for C4 at a concrete kind and coordinate. -/
theorem place_break_roundtrip_witness :
    breakHandler (placeBlock [] ⟨0, 0, 0⟩ BlockType.dirt) ⟨0, 0, 0⟩ = [] :=
  (place_break_roundtrip [] ⟨0, 0, 0⟩ BlockType.dirt (by decide) rfl).1

/-! ## Fold lemmas for generation loops -/

theorem get_foldl_set_of_forall_ne {α : Type} (f : α → Coord) (g : α → BlockType)
    (c : Coord) :
    ∀ (L : List α) (b : VoxelStore), (∀ a ∈ L, f a ≠ c) →
      VoxelStore.get (L.foldl (fun s a => s.set (f a) (g a)) b) c = VoxelStore.get b c := by
  intro L
  induction L with
  | nil => intro b _; rfl
  | cons a L ih =>
    intro b hne
    simp only [List.foldl_cons]
    rw [ih (b.set (f a) (g a)) (fun a' ha' => hne a' (List.mem_cons_of_mem _ ha'))]
    exact VoxelStore.get_set_ne b (f a) c (g a) (hne a (List.mem_cons_self a L))

theorem get_foldl_set_of_hit {α : Type} (f : α → Coord) (g : α → BlockType)
    (c : Coord) (v : BlockType) :
    ∀ (L : List α) (b : VoxelStore),
      (∀ a ∈ L, f a = c → g a = v) →
      ((∃ a ∈ L, f a = c) ∨ VoxelStore.get b c = some v) →
      VoxelStore.get (L.foldl (fun s a => s.set (f a) (g a)) b) c = some v := by
  intro L
  induction L with
  | nil =>
    intro b _ hsome
    rcases hsome with ⟨a, ha, _⟩ | hb
    · exact absurd ha (List.not_mem_nil a)
    · exact hb
  | cons a L ih =>
    intro b hall hsome
    simp only [List.foldl_cons]
    by_cases hfa : f a = c
    · refine ih (b.set (f a) (g a)) (fun a' h' hc => hall a' (List.mem_cons_of_mem _ h') hc)
        (Or.inr ?_)
      rw [hfa, VoxelStore.get_set_self, hall a (List.mem_cons_self a L) hfa]
    · refine ih (b.set (f a) (g a)) (fun a' h' hc => hall a' (List.mem_cons_of_mem _ h') hc) ?_
      rcases hsome with ⟨a', ha', hc'⟩ | hb
      · rcases List.mem_cons.mp ha' with rfl | h'
        · exact absurd hc' hfa
        · exact Or.inl ⟨a', h', hc'⟩
      · exact Or.inr (by rw [VoxelStore.get_set_ne b (f a) c (g a) hfa]; exact hb)

/-! ## C1: terrain column layers -/

/-- C1 counterexample: at terrain height 10 (non-desert), layer y = 7 = h-3
is stone in the generated column, where the claim demands dirt. -/
theorem column_fill_third_layer_stone :
    (genColumn [] 0 0 false 10).get ⟨0, 7, 0⟩ = some BlockType.stone ∧
    BlockType.stone ≠ BlockType.dirt :=
  ⟨by with_unfolding_all rfl, by decide⟩

/-- C1 (as amended): for every generated column and terrain height h, the
fill sets y = 0 to bedrock, the top layer y = h to grass (sand in a desert),
the next 2 layers below the top (y = h-1, h-2) to dirt (sand in a desert),
and every layer from y = 1 up to y = h-3 to stone. -/
theorem column_fill_layers (s : VoxelStore) (x z : Int) (d : Bool) (h : Int) :
    (genColumn s x z d h).get ⟨x, 0, z⟩ = some BlockType.bedrock ∧
    (1 ≤ h → (genColumn s x z d h).get ⟨x, h, z⟩ =
      some (if d then BlockType.sand else BlockType.grass)) ∧
    (∀ y : Int, 1 ≤ y → h - 2 ≤ y → y < h →
      (genColumn s x z d h).get ⟨x, y, z⟩ =
        some (if d then BlockType.sand else BlockType.dirt)) ∧
    (∀ y : Int, 1 ≤ y → y ≤ h - 3 →
      (genColumn s x z d h).get ⟨x, y, z⟩ = some BlockType.stone) := by
  have key : ∀ y : Int, 1 ≤ y → y ≤ h →
      (genColumn s x z d h).get ⟨x, y, z⟩ = some (columnLayer d h y) := by
    intro y h1 h2
    unfold genColumn
    refine get_foldl_set_of_hit (fun i : ℕ => (⟨x, (i : Int) + 1, z⟩ : Coord))
      (fun i : ℕ => columnLayer d h ((i : Int) + 1)) ⟨x, y, z⟩ (columnLayer d h y)
      (List.range h.toNat) (s.set ⟨x, 0, z⟩ BlockType.bedrock) ?_ (Or.inl ?_)
    · intro i _ hEq
      rw [Coord.mk.injEq] at hEq
      simp only [hEq.2.1]
    · refine ⟨(y - 1).toNat, List.mem_range.mpr (by omega), ?_⟩
      rw [Coord.mk.injEq]
      exact ⟨rfl, by omega, rfl⟩
  refine ⟨?_, ?_, ?_, ?_⟩
  · unfold genColumn
    rw [get_foldl_set_of_forall_ne (fun i : ℕ => (⟨x, (i : Int) + 1, z⟩ : Coord))
      (fun i : ℕ => columnLayer d h ((i : Int) + 1)) ⟨x, 0, z⟩ (List.range h.toNat)
      (s.set ⟨x, 0, z⟩ BlockType.bedrock) ?_]
    · exact VoxelStore.get_set_self s ⟨x, 0, z⟩ BlockType.bedrock
    · intro i _ hEq
      rw [Coord.mk.injEq] at hEq
      omega
  · intro h1
    rw [key h h1 le_rfl]
    unfold columnLayer
    rw [if_pos rfl]
  · intro y h1 h2 h3
    rw [key y h1 (by omega)]
    unfold columnLayer
    rw [if_neg (by omega), if_pos (by omega)]
  · intro y h1 h2
    rw [key y h1 (by omega)]
    unfold columnLayer
    rw [if_neg (by omega), if_neg (by omega)]

/-- Witness for C1 at a concrete column of height 10. -/
theorem column_fill_layers_witness :
    (genColumn [] 0 0 false 10).get ⟨0, 0, 0⟩ = some BlockType.bedrock ∧
    (genColumn [] 0 0 false 10).get ⟨0, 10, 0⟩ = some BlockType.grass ∧
    (genColumn [] 0 0 false 10).get ⟨0, 9, 0⟩ = some BlockType.dirt ∧
    (genColumn [] 0 0 false 10).get ⟨0, 6, 0⟩ = some BlockType.stone := by
  have t := column_fill_layers [] 0 0 false 10
  exact ⟨t.1, by simpa using t.2.1 (by decide),
    by simpa using t.2.2.1 9 (by decide) (by decide) (by decide),
    t.2.2.2 6 (by decide) (by decide)⟩

/-! ## Lemmas for the leaf loop -/

theorem leafStep_get_ne (tx cy tz : Int) (b : VoxelStore) (o : Int × Int × Int)
    (c : Coord) (h : leafCoord tx cy tz o ≠ c) :
    VoxelStore.get (leafStep tx cy tz b o) c = VoxelStore.get b c := by
  unfold leafStep
  split
  · split
    · rfl
    · exact VoxelStore.get_set_ne b _ c BlockType.leaves h
  · rfl

theorem leafFold_get_of_forall_ne (tx cy tz : Int) (c : Coord) :
    ∀ (L : List (Int × Int × Int)) (b : VoxelStore),
      (∀ o ∈ L, leafCoord tx cy tz o ≠ c) →
      VoxelStore.get (L.foldl (leafStep tx cy tz) b) c = VoxelStore.get b c := by
  intro L
  induction L with
  | nil => intro b _; rfl
  | cons o L ih =>
    intro b hne
    simp only [List.foldl_cons]
    rw [ih _ (fun o' ho' => hne o' (List.mem_cons_of_mem _ ho'))]
    exact leafStep_get_ne tx cy tz b o c (hne o (List.mem_cons_self o L))

theorem leafFold_get_hit (tx cy tz : Int) (o1 : Int × Int × Int)
    (hsph : inLeafSphere o1 = true) :
    ∀ (L : List (Int × Int × Int)) (b : VoxelStore), o1 ∈ L →
      (∀ o ∈ L, leafCoord tx cy tz o = leafCoord tx cy tz o1 → o = o1) →
      VoxelStore.get (L.foldl (leafStep tx cy tz) b) (leafCoord tx cy tz o1) =
        (if VoxelStore.get b (leafCoord tx cy tz o1) = some BlockType.wood
         then some BlockType.wood else some BlockType.leaves) := by
  intro L
  induction L with
  | nil => intro b hmem _; exact absurd hmem (List.not_mem_nil o1)
  | cons o L ih =>
    intro b hmem huniq
    simp only [List.foldl_cons]
    by_cases ho : o = o1
    · subst ho
      have hstep : VoxelStore.get (leafStep tx cy tz b o) (leafCoord tx cy tz o) =
          (if VoxelStore.get b (leafCoord tx cy tz o) = some BlockType.wood
           then some BlockType.wood else some BlockType.leaves) := by
        unfold leafStep
        rw [if_pos hsph]
        by_cases hw : VoxelStore.get b (leafCoord tx cy tz o) = some BlockType.wood
        · rw [if_pos hw, if_pos hw, hw]
        · rw [if_neg hw, if_neg hw]
          exact VoxelStore.get_set_self b _ BlockType.leaves
      by_cases hmem' : o ∈ L
      · rw [ih (leafStep tx cy tz b o) hmem'
          (fun o' ho' hc => huniq o' (List.mem_cons_of_mem _ ho') hc), hstep]
        by_cases hw : VoxelStore.get b (leafCoord tx cy tz o) = some BlockType.wood
        · simp [hw]
        · simp [hw]
      · rw [leafFold_get_of_forall_ne tx cy tz _ L (leafStep tx cy tz b o) ?_]
        · exact hstep
        · intro o' ho' hc
          exact absurd ((huniq o' (List.mem_cons_of_mem _ ho') hc) ▸ ho') hmem'
    · have hne : leafCoord tx cy tz o ≠ leafCoord tx cy tz o1 :=
        fun hc => ho (huniq o (List.mem_cons_self o L) hc)
      have hmem1 : o1 ∈ L := by
        rcases List.mem_cons.mp hmem with h1 | h1
        · exact absurd h1.symm ho
        · exact h1
      rw [ih (leafStep tx cy tz b o) hmem1
        (fun o' ho' hc => huniq o' (List.mem_cons_of_mem _ ho') hc),
        leafStep_get_ne tx cy tz b o _ hne]

theorem mem_seqLR {v : Int} (h1 : -2 ≤ v) (h2 : v ≤ 2) : v ∈ seqLR := by
  unfold seqLR
  interval_cases v <;> decide

theorem mem_seqLY {v : Int} (h1 : -1 ≤ v) (h2 : v ≤ 2) : v ∈ seqLY := by
  unfold seqLY
  interval_cases v <;> decide

theorem mem_leafOffsets {lx ly lz : Int} (h1 : -2 ≤ lx) (h2 : lx ≤ 2)
    (h3 : -1 ≤ ly) (h4 : ly ≤ 2) (h5 : -2 ≤ lz) (h6 : lz ≤ 2) :
    (lx, ly, lz) ∈ leafOffsets := by
  unfold leafOffsets
  refine List.mem_flatMap.mpr ⟨lx, mem_seqLR h1 h2, ?_⟩
  refine List.mem_flatMap.mpr ⟨ly, mem_seqLY h3 h4, ?_⟩
  exact List.mem_map.mpr ⟨lz, mem_seqLR h5 h6, rfl⟩

/-! ## C6: tree leaf placement -/

/-- C6 counterexample: tree at column (0,0), terrain height 5, trunk height 4
(wood at y = 6..9).  The claimed sphere center — one below the trunk top — is
(0,8,0); the integer offset (1,-1,0) has Euclidean distance √2 ≤ 2.5 and the
target (1,7,0) holds no wood, yet generation leaves it empty: the leaf loop
never visits offsets below ly = -1 relative to the code's center (0,9,0), and
(1,7,0) is at ly = -2 from it. -/
theorem tree_leaves_lower_shell_missing :
    inLeafSphere (1, -1, 0) = true ∧
    (placeTree [] 0 0 5 4).get ⟨1, 7, 0⟩ = none :=
  ⟨by decide, by with_unfolding_all rfl⟩

/-- C6 (as amended): for every tree, with the leaf-sphere center at the
trunk-top voxel (y = h + trunkHeight), every integer offset in the loop
ranges lx, lz ∈ [-2,2], ly ∈ [-1,2] within Euclidean distance ≤ 2.5 of the
center receives a leaves block unless that coordinate holds wood once the
trunk is placed, and one extra leaves block is placed 3 above the center. -/
theorem tree_leaves_placement (s : VoxelStore) (tx tz h : Int) (t : Nat)
    (lx ly lz : Int) (h1 : -2 ≤ lx) (h2 : lx ≤ 2) (h3 : -1 ≤ ly) (h4 : ly ≤ 2)
    (h5 : -2 ≤ lz) (h6 : lz ≤ 2)
    (hsph : inLeafSphere (lx, ly, lz) = true) :
    (placeTree s tx tz h t).get ⟨tx + lx, (h + 1 + (t : Int) - 1) + ly, tz + lz⟩ =
      (if (trunkStore s tx tz (h + 1) t).get
            ⟨tx + lx, (h + 1 + (t : Int) - 1) + ly, tz + lz⟩ = some BlockType.wood
       then some BlockType.wood else some BlockType.leaves) ∧
    (placeTree s tx tz h t).get ⟨tx, (h + 1 + (t : Int) - 1) + 2 + 1, tz⟩ =
      some BlockType.leaves := by
  constructor
  · simp only [placeTree]
    rw [VoxelStore.get_set_ne _ _ _ _ ?_]
    · have key := leafFold_get_hit tx (h + 1 + (t : Int) - 1) tz (lx, ly, lz) hsph
        leafOffsets (trunkStore s tx tz (h + 1) t)
        (mem_leafOffsets h1 h2 h3 h4 h5 h6) ?_
      · simpa [placeLeaves, leafCoord] using key
      · intro o _ hc
        obtain ⟨ox, oy, oz⟩ := o
        simp only [leafCoord, Coord.mk.injEq] at hc
        simp only [Prod.mk.injEq]
        omega
    · intro hEq
      rw [Coord.mk.injEq] at hEq
      omega
  · simp only [placeTree]
    exact VoxelStore.get_set_self _ _ _

/-- Witness for C6 at a concrete tree and offset (2, 0, 0). -/
theorem tree_leaves_placement_witness :
    (placeTree [] 0 0 5 4).get ⟨2, 9, 0⟩ = some BlockType.leaves ∧
    (placeTree [] 0 0 5 4).get ⟨0, 12, 0⟩ = some BlockType.leaves := by
  have t := tree_leaves_placement [] 0 0 5 4 2 0 0 (by decide) (by decide) (by decide)
    (by decide) (by decide) (by decide) (by decide)
  have h1 := t.1
  rw [if_neg (by decide)] at h1
  constructor
  · exact h1
  · exact t.2

/-! ## C2: exposure predicate and render batch -/

theorem translucentOrAbsent_iff (b : Option BlockType) :
    translucentOrAbsent b = true ↔
      b = none ∨ b = some BlockType.glass ∨ b = some BlockType.water ∨
        b = some BlockType.leaves := by
  cases b with
  | none => simp [translucentOrAbsent]
  | some k => cases k <;> simp [translucentOrAbsent]

theorem mem_visible_iff (s : VoxelStore) (c : Coord) (k : BlockType)
    (hc : s.get c = some k) :
    c ∈ (visibleEntries s).map Prod.fst ↔ hasExposedFace s c = true := by
  constructor
  · intro hmem
    obtain ⟨e, he, hfst⟩ := List.mem_map.mp hmem
    have hp := (List.mem_filter.mp he).2
    rw [hfst] at hp
    simpa using hp
  · intro hexp
    refine List.mem_map.mpr
      ⟨(c, k), List.mem_filter.mpr ⟨VoxelStore.get_mem s c k hc, ?_⟩, rfl⟩
    simpa using hexp

theorem hasExposedFace_iff (s : VoxelStore) (c : Coord) :
    hasExposedFace s c = true ↔
      ∃ d ∈ FACE_DIRS, translucentOrAbsent (s.get (addC c d)) = true := by
  unfold hasExposedFace
  rw [List.any_eq_true]

/-- C2 (confirmed): a stored voxel is in the render batch iff one of its 6
face-adjacent neighbors is absent or holds glass, water, or leaves; with all
6 neighbors present and opaque it is excluded, and with no neighbor present
it is included. -/
theorem exposure_batch_iff (s : VoxelStore) (c : Coord) (k : BlockType)
    (hc : s.get c = some k) :
    (c ∈ (visibleEntries s).map Prod.fst ↔
      ∃ d ∈ FACE_DIRS, (s.get (addC c d) = none ∨
        s.get (addC c d) = some BlockType.glass ∨
        s.get (addC c d) = some BlockType.water ∨
        s.get (addC c d) = some BlockType.leaves)) ∧
    ((∀ d ∈ FACE_DIRS, ∃ k' : BlockType, s.get (addC c d) = some k' ∧
        k' ≠ BlockType.glass ∧ k' ≠ BlockType.water ∧ k' ≠ BlockType.leaves) →
      c ∉ (visibleEntries s).map Prod.fst) ∧
    ((∀ d ∈ FACE_DIRS, s.get (addC c d) = none) →
      c ∈ (visibleEntries s).map Prod.fst) := by
  have hiff : c ∈ (visibleEntries s).map Prod.fst ↔
      ∃ d ∈ FACE_DIRS, translucentOrAbsent (s.get (addC c d)) = true :=
    (mem_visible_iff s c k hc).trans (hasExposedFace_iff s c)
  refine ⟨?_, ?_, ?_⟩
  · rw [hiff]
    constructor
    · rintro ⟨d, hd, ht⟩
      exact ⟨d, hd, (translucentOrAbsent_iff _).mp ht⟩
    · rintro ⟨d, hd, ht⟩
      exact ⟨d, hd, (translucentOrAbsent_iff _).mpr ht⟩
  · intro hall
    rw [hiff]
    rintro ⟨d, hd, ht⟩
    obtain ⟨k', hk', hg, hw, hl⟩ := hall d hd
    rcases (translucentOrAbsent_iff _).mp ht with hcase | hcase | hcase | hcase
    · rw [hk'] at hcase
      exact Option.noConfusion hcase
    · rw [hk'] at hcase
      exact hg (Option.some.inj hcase)
    · rw [hk'] at hcase
      exact hw (Option.some.inj hcase)
    · rw [hk'] at hcase
      exact hl (Option.some.inj hcase)
  · intro hall
    rw [hiff]
    have hd : (1, 0, 0) ∈ FACE_DIRS := by decide
    exact ⟨(1, 0, 0), hd, (translucentOrAbsent_iff _).mpr (Or.inl (hall _ hd))⟩

/-- Witness for C2: a lone stone voxel (no neighbors) is in the batch. -/
theorem exposure_batch_iff_witness :
    (⟨0, 0, 0⟩ : Coord) ∈ (visibleEntries [(⟨0, 0, 0⟩, BlockType.stone)]).map Prod.fst :=
  (exposure_batch_iff [(⟨0, 0, 0⟩, BlockType.stone)] ⟨0, 0, 0⟩ BlockType.stone rfl).2.2
    (by decide)

/-! ## C3 and C9: ray marching -/

theorem raycastLoop_hit_solid (s : VoxelStore) (dir : Vec3) :
    ∀ (n : Nat) (pos : Vec3) (prev : Coord) (hit : RayHit),
      raycastLoop s dir pos prev n = some hit →
      ∃ k, VoxelStore.get s hit.hitPos = some k ∧ k ≠ BlockType.water := by
  intro n
  induction n with
  | zero =>
    intro pos prev hit h
    exact absurd h (by simp [raycastLoop])
  | succ n ih =>
    intro pos prev hit h
    simp only [raycastLoop] at h
    split at h
    · exact ih _ _ _ h
    · split at h
      · rename_i k heq
        split at h
        · exact ih _ _ _ h
        · rename_i hkw
          injection h with h2
          refine ⟨k, ?_, hkw⟩
          rw [← h2]
          exact heq
      · exact ih _ _ _ h

/-- C3 (confirmed): the raycast never returns a water hit — every hit holds
a non-water kind; a store holding only water (and empty space) yields none;
and a concrete ray whose first occupied voxel is water passes through it and
hits the stone beyond. -/
theorem raycast_water_transparent :
    (∀ (o dir : Vec3) (s : VoxelStore) (m : ℚ) (hit : RayHit),
      raycastBlocks o dir s m = some hit →
      ∃ k, VoxelStore.get s hit.hitPos = some k ∧ k ≠ BlockType.water) ∧
    (∀ (o dir : Vec3) (s : VoxelStore) (m : ℚ),
      (∀ e ∈ s, e.2 = BlockType.water) → raycastBlocks o dir s m = none) ∧
    raycastBlocks ⟨0, 5, 0⟩ ⟨0, -1, 0⟩
      [(⟨0, 3, 0⟩, BlockType.water), (⟨0, 1, 0⟩, BlockType.stone)] 6 =
      some ⟨⟨0, 1, 0⟩, ⟨0, 1, 0⟩⟩ := by
  have main : ∀ (o dir : Vec3) (s : VoxelStore) (m : ℚ) (hit : RayHit),
      raycastBlocks o dir s m = some hit →
      ∃ k, VoxelStore.get s hit.hitPos = some k ∧ k ≠ BlockType.water := by
    intro o dir s m hit h
    unfold raycastBlocks at h
    exact raycastLoop_hit_solid s _ _ _ _ hit h
  refine ⟨main, ?_, by with_unfolding_all rfl⟩
  intro o dir s m hall
  cases heq : raycastBlocks o dir s m with
  | none => rfl
  | some hit =>
    obtain ⟨k, hk, hkw⟩ := main o dir s m hit heq
    exact absurd (hall _ (VoxelStore.get_mem s hit.hitPos k hk)) hkw

/-- Witness for C3: a ray meeting only water and empty space returns none. -/
theorem raycast_water_transparent_witness :
    raycastBlocks ⟨0, 5, 0⟩ ⟨0, -1, 0⟩ [(⟨0, 3, 0⟩, BlockType.water)] 6 = none :=
  raycast_water_transparent.2.1 ⟨0, 5, 0⟩ ⟨0, -1, 0⟩ [(⟨0, 3, 0⟩, BlockType.water)] 6
    (by decide)

/-- C9 (confirmed): origin (0,5,0), direction (0,-1,0), store with bedrock
at (0,0,0) and nothing else along the path, maxDistance 6: the raycast hits
(0,0,0) with face normal (0,1,0). -/
theorem raycast_bedrock_example :
    raycastBlocks ⟨0, 5, 0⟩ ⟨0, -1, 0⟩ [(⟨0, 0, 0⟩, BlockType.bedrock)] 6 =
      some ⟨⟨0, 0, 0⟩, ⟨0, 1, 0⟩⟩ := by
  with_unfolding_all rfl

/-! ## C7: self-placement rejection -/

/-- C7 counterexample: with the camera at (0.45, 10, 0), the placement
coordinate (1, 10, 0) overlaps the player's bounding volume (its x-extent
[0.15, 0.75] meets the cube's [0.5, 1.5]), yet the handler places the block:
its guard only compares against the rounded camera column x = 0, z = 0. -/
theorem place_self_intersection_counterexample :
    bodyIntersectsCube ⟨9/20, 10, 0⟩ ⟨1, 10, 0⟩ ∧
    VoxelStore.get [] ⟨1, 10, 0⟩ = none ∧
    (placeHandler [] ⟨9/20, 10, 0⟩ ⟨1, 10, 0⟩ BlockType.dirt).get ⟨1, 10, 0⟩ =
      some BlockType.dirt :=
  ⟨by with_unfolding_all decide, rfl, by with_unfolding_all rfl⟩

/-- C7 (as amended): the place handler rejects a placement (leaving the
store unchanged) precisely when the placement coordinate lies in the rounded
camera column — `px = round(cp.x)`, `pz = round(cp.z)` and
`round(cp.y - PLAYER_HEIGHT) ≤ py ≤ round(cp.y)`; when that guard fails and
the target is empty, the block is placed. -/
theorem place_reject_rounded_column (s : VoxelStore) (cp : Vec3) (p : Coord)
    (k : BlockType) :
    (selfColumnBlocked cp p → placeHandler s cp p k = s) ∧
    (¬ selfColumnBlocked cp p → s.get p = none →
      (placeHandler s cp p k).get p = some k) := by
  constructor
  · intro hb
    unfold placeHandler
    rw [if_pos hb]
  · intro hb hempty
    unfold placeHandler
    rw [if_neg hb]
    unfold placeBlock
    rw [hempty]
    exact VoxelStore.get_set_self s p k

/-- Witness for C7: both branches at concrete inputs. -/
theorem place_reject_rounded_column_witness :
    placeHandler [] ⟨0, 10, 0⟩ ⟨0, 10, 0⟩ BlockType.dirt = [] ∧
    (placeHandler [] ⟨0, 10, 0⟩ ⟨3, 10, 0⟩ BlockType.dirt).get ⟨3, 10, 0⟩ =
      some BlockType.dirt :=
  ⟨(place_reject_rounded_column [] ⟨0, 10, 0⟩ ⟨0, 10, 0⟩ BlockType.dirt).1
      (by with_unfolding_all decide),
   (place_reject_rounded_column [] ⟨0, 10, 0⟩ ⟨3, 10, 0⟩ BlockType.dirt).2
      (by with_unfolding_all decide) rfl⟩

/-! ## C8: axis-separated collision resolution -/

/-- C8 (confirmed): in one integration step where the candidate X move
collides and the candidate Z move (checked at the unchanged X) does not,
the X position is unchanged and the X velocity zeroed, while the Z position
advances by vz * dt and the Z velocity is untouched. -/
theorem axis_separated_sliding (s : VoxelStore) (b : Body) (dt : ℚ)
    (hx : checkCollision s (b.px + b.vx * dt) b.py b.pz = true)
    (hz : checkCollision s b.px b.py (b.pz + b.vz * dt) = false) :
    (moveAxes s b dt).px = b.px ∧ (moveAxes s b dt).vx = 0 ∧
    (moveAxes s b dt).pz = b.pz + b.vz * dt ∧ (moveAxes s b dt).vz = b.vz := by
  have hz' : ¬ (checkCollision s b.px b.py (b.pz + b.vz * dt) = true) := by
    rw [hz]
    exact Bool.false_ne_true
  simp only [moveAxes]
  rw [if_pos hx]
  dsimp only
  rw [if_neg hz']
  dsimp only
  refine ⟨?_, ?_, ?_, ?_⟩ <;> (split <;> (try split) <;> (try split) <;> rfl)

/-- Witness for C8: a wall at (1,1,0) blocks the X move of a body at the
origin column moving diagonally (+x, +z). -/
theorem axis_separated_sliding_witness :
    (moveAxes [(⟨1, 1, 0⟩, BlockType.stone)] ⟨0, 2, 0, 5, 0, 3, false⟩ (1/20)).px = 0 ∧
    (moveAxes [(⟨1, 1, 0⟩, BlockType.stone)] ⟨0, 2, 0, 5, 0, 3, false⟩ (1/20)).vx = 0 ∧
    (moveAxes [(⟨1, 1, 0⟩, BlockType.stone)] ⟨0, 2, 0, 5, 0, 3, false⟩ (1/20)).pz =
      0 + 3 * (1/20) ∧
    (moveAxes [(⟨1, 1, 0⟩, BlockType.stone)] ⟨0, 2, 0, 5, 0, 3, false⟩ (1/20)).vz = 3 :=
  axis_separated_sliding [(⟨1, 1, 0⟩, BlockType.stone)] ⟨0, 2, 0, 5, 0, 3, false⟩ (1/20)
    (by with_unfolding_all rfl) (by with_unfolding_all rfl)

/-! ## C10: timestep clamp -/

/-- C10 (confirmed): the frame step clamps its timestep to 0.05 s — for
every raw frame delta at least 0.05, the step returns exactly the same body
(velocity, position, grounded flag) as a step with delta 0.05. -/
theorem delta_clamp_equiv (pow001 : ℚ → ℚ) (s : VoxelStore)
    (flying sprintKey jumpKey : Bool) (moveX moveZ moveY : ℚ) (b : Body)
    (rawDelta : ℚ) (hd : 1/20 ≤ rawDelta) :
    useFrameStep pow001 s flying sprintKey jumpKey moveX moveZ moveY b rawDelta =
      useFrameStep pow001 s flying sprintKey jumpKey moveX moveZ moveY b (1/20) := by
  unfold useFrameStep
  rw [min_eq_right hd, min_self]

/-- Witness for C10 at a concrete raw delta of 0.1 s. -/
theorem delta_clamp_equiv_witness :
    useFrameStep (fun q => q) [] false false false 0 0 0 ⟨0, 2, 0, 0, 0, 0, false⟩ (1/10) =
      useFrameStep (fun q => q) [] false false false 0 0 0 ⟨0, 2, 0, 0, 0, 0, false⟩ (1/20) :=
  delta_clamp_equiv (fun q => q) [] false false false 0 0 0 ⟨0, 2, 0, 0, 0, 0, false⟩
    (1/10) (by with_unfolding_all decide)
